import Mathlib

/-!
Verification of the IES-to-HDR converter core (main.cpp).

The classifier in IES2HDR decides, from the photometric grid, whether the
light profile is saved as a 1-D or 2-D HDR texture.  Machine floats and
doubles are modelled as real numbers; std::sqrt is Real.sqrt.  The
collaborators whose code is not part of this repository's sources (the IES
loader, the saveAs1D/saveAs2D resamplers and the RGBE codec) are modelled
by their success/failure outcomes, and IES2HDR itself by the sequence of
collaborator calls it performs together with its boolean return value.
-/

/-- The photometric grid handed to IES2HDR by the loader: vertical and
horizontal angle counts and the flattened candela sample sequence
(getCandalaValues), indexed as samples[h * anglesNumV + v].  Samples are
modelled as a total function on offsets, as the C++ code reads the flat
array directly. -/
structure IESFileInfo where
  anglesNumV : ℕ
  anglesNumH : ℕ
  candalaValues : ℕ → ℝ

/-- Running minimum of a list.  Models the C++ loop seeded with
std::numeric_limits float max: every float sample is at most that seed, so
for the nonempty slices the loop visits (anglesNumH ≥ 2 in the branch
containing it) the seed is absorbed by the first iteration and the result
is the minimum of the visited values. -/
def listMin : List ℝ → ℝ
  | [] => 0
  | x :: xs => xs.foldl min x

/-- Running maximum of a list, modelling the loop seeded with
std::numeric_limits float lowest; the seed is absorbed by the first
visited value. -/
def listMax : List ℝ → ℝ
  | [] => 0
  | x :: xs => xs.foldl max x

/-- sumSq accumulated by the inner loop: sum of val * val. -/
def sumSq (l : List ℝ) : ℝ := (l.map fun x => x * x).sum

/-- The candela values visited by the inner loop for vertical angle v:
candalaValues[h * verticalAngles + v] for h = 0, ..., horizontalAngles - 1. -/
def sliceVals (info : IESFileInfo) (v : ℕ) : List ℝ :=
  (List.range info.anglesNumH).map fun h =>
    info.candalaValues (h * info.anglesNumV + v)

/-- The local mean = sum / horizontalAngles computed when sum > 0. -/
noncomputable def sliceMean (info : IESFileInfo) (v : ℕ) : ℝ :=
  (sliceVals info v).sum / info.anglesNumH

/-- coeffVar = stdDev / mean with
stdDev = sqrt (max 0 (sumSq / horizontalAngles - mean * mean)). -/
noncomputable def sliceCoeffVar (info : IESFileInfo) (v : ℕ) : ℝ :=
  Real.sqrt (max 0 (sumSq (sliceVals info v) / info.anglesNumH -
    sliceMean info v * sliceMean info v)) / sliceMean info v

/-- What one iteration of the outer loop adds to avgVariation: inside the
sum > 0 guard, coeffVar plus the 0.5 penalty when minVal > 0 and
maxVal / minVal > 1.2; nothing otherwise. -/
noncomputable def sliceContrib (info : IESFileInfo) (v : ℕ) : ℝ :=
  if 0 < (sliceVals info v).sum then
    sliceCoeffVar info v +
      (if 0 < listMin (sliceVals info v) ∧
          (1.2 : ℝ) < listMax (sliceVals info v) / listMin (sliceVals info v)
        then 0.5 else 0)
  else 0

/-- avgVariation after the outer loop and the division by verticalAngles. -/
noncomputable def avgVariation (info : IESFileInfo) : ℝ :=
  ((List.range info.anglesNumV).map (sliceContrib info)).sum / info.anglesNumV

/-- kVariationThreshold = 0.15. -/
def kVariationThreshold : ℝ := 0.15

/-- The classifier decision: use1D is set unconditionally when
anglesNumH ≤ 1, and otherwise holds exactly when
avgVariation < kVariationThreshold. -/
def use1D (info : IESFileInfo) : Prop :=
  if info.anglesNumH ≤ 1 then True else avgVariation info < kVariationThreshold

/-- Spec-side gathering, from the spec's words: the values at offsets
h * V + v for h in 0..H-1. -/
def specVals (info : IESFileInfo) (v : ℕ) : List ℝ :=
  (List.range info.anglesNumH).map fun h =>
    info.candalaValues (h * info.anglesNumV + v)

/-- Spec-side per-slice contribution, written from the spec's words for
comparison with sliceContrib: if the gathered values' sum > 0 contribute
stdDev / mean with mean = sum / H, variance = max (0, sumOfSquares / H -
mean²), stdDev = sqrt variance; additionally contribute 0.5 when
minVal > 0 and maxVal / minVal > 1.2 (stated independently of the
sum > 0 branch). -/
noncomputable def specSliceContrib (info : IESFileInfo) (v : ℕ) : ℝ :=
  (if 0 < (specVals info v).sum then
      Real.sqrt (max 0 (sumSq (specVals info v) / info.anglesNumH -
        (specVals info v).sum / info.anglesNumH *
          ((specVals info v).sum / info.anglesNumH))) /
        ((specVals info v).sum / info.anglesNumH)
    else 0) +
  (if 0 < listMin (specVals info v) ∧
      (1.2 : ℝ) < listMax (specVals info v) / listMin (specVals info v)
    then 0.5 else 0)

/-- Spec-side average: the running total of per-slice contributions divided
by the vertical angle count. -/
noncomputable def specAvgVariation (info : IESFileInfo) : ℝ :=
  ((List.range info.anglesNumV).map (specSliceContrib info)).sum /
    info.anglesNumV

open Classical

/-- The grid with every candela sample multiplied by a constant c. -/
def scaleInfo (c : ℝ) (info : IESFileInfo) : IESFileInfo :=
  ⟨info.anglesNumV, info.anglesNumH, fun i => c * info.candalaValues i⟩

/-- Concrete grid of the spec's worked example: H = 2, V = 1, candela
values 1.0 and 1.25 at offsets 0 and 1. -/
noncomputable def infoC6 : IESFileInfo :=
  ⟨1, 2, fun i => if i = 0 then 1 else if i = 1 then 1.25 else 0⟩

/-- Success/failure outcomes of the external collaborators invoked by
IES2HDR, modelled from the spec: the input stream open, IESLoadHelper.load,
saveAs1D, saveAs2D, fopen of the output path, RGBE header write and RGBE
RLE pixel write each report success or failure. -/
structure Collaborators where
  openInputOk : Bool
  loadOk : Bool
  save1DOk : Bool
  save2DOk : Bool
  openOutputOk : Bool
  writeHeaderOk : Bool
  writePixelsOk : Bool

/-- Observable steps IES2HDR performs after a successful load: resizing the
output stream buffer, invoking a resampler with the geometry arguments the
source passes, opening the output file and the two RGBE write calls. -/
inductive Event where
  | allocBuffer : ℕ → Event
  | callSave1D : ℕ → ℕ → Event
  | callSave2D : ℕ → ℕ → ℕ → Event
  | openOutput : Event
  | writeHeader : ℕ → ℕ → Event
  | writePixels : ℕ → ℕ → Event
deriving DecidableEq

/-- The control flow of IES2HDR, as the pair (return value, call trace):
open and load the input (each failure returns false with nothing emitted);
set width = 128, height = 128, channel = 3 and resize the buffer to
width * height * channel; dispatch on use1D to saveAs1D(width, channel) or
saveAs2D(width, height, channel), returning false on resampler failure;
fopen the output, returning false when it fails; then call
RGBE_WriteHeader and RGBE_WritePixels_RLE and return true — the source
discards the results of those two write calls, so writeHeaderOk and
writePixelsOk do not influence the return value.  The dispatch condition
use1D is a proposition over the reals, so the definition is classical. -/
noncomputable def IES2HDRrun (co : Collaborators) (info : IESFileInfo) :
    Bool × List Event :=
  if co.openInputOk = false then (false, [])
  else if co.loadOk = false then (false, [])
  else
    let width : ℕ := 128
    let height : ℕ := 128
    let channel : ℕ := 3
    let ev := [Event.allocBuffer (width * height * channel)]
    if use1D info then
      if co.save1DOk = false then (false, ev ++ [Event.callSave1D width channel])
      else if co.openOutputOk = false then
        (false, ev ++ [Event.callSave1D width channel, Event.openOutput])
      else
        (true, ev ++ [Event.callSave1D width channel, Event.openOutput,
          Event.writeHeader width height, Event.writePixels width height])
    else
      if co.save2DOk = false then
        (false, ev ++ [Event.callSave2D width height channel])
      else if co.openOutputOk = false then
        (false, ev ++ [Event.callSave2D width height channel, Event.openOutput])
      else
        (true, ev ++ [Event.callSave2D width height channel, Event.openOutput,
          Event.writeHeader width height, Event.writePixels width height])

/-- A grid with a single horizontal angle, classified 1-D unconditionally. -/
def info1D : IESFileInfo := ⟨1, 0, fun _ => 0⟩

/-- A 2 x 1 grid whose samples are all zero. -/
def infoZero : IESFileInfo := ⟨1, 2, fun _ => 0⟩

/-- Collaborators where the 1-D resampler fails and everything else
succeeds. -/
def co7 : Collaborators := ⟨true, true, false, true, true, true, true⟩

/-- Collaborators where both RGBE write calls fail and everything else
succeeds. -/
def co8 : Collaborators := ⟨true, true, true, true, true, false, false⟩

/-- Collaborators where opening the output path fails and everything else
succeeds. -/
def co8b : Collaborators := ⟨true, true, true, true, false, true, true⟩

/-- Collaborators where every call succeeds. -/
def co9 : Collaborators := ⟨true, true, true, true, true, true, true⟩

theorem listMin_cons (x : ℝ) (xs : List ℝ) :
    listMin (x :: xs) = xs.foldl min x := rfl

theorem foldl_min_le_init (xs : List ℝ) (a : ℝ) : xs.foldl min a ≤ a := by
  induction xs generalizing a with
  | nil => exact le_refl a
  | cons x xs ih =>
    calc xs.foldl min (min a x) ≤ min a x := ih (min a x)
      _ ≤ a := min_le_left _ _

theorem foldl_min_le_mem {xs : List ℝ} {y : ℝ} (a : ℝ) (h : y ∈ xs) :
    xs.foldl min a ≤ y := by
  induction xs generalizing a with
  | nil => simp at h
  | cons x xs ih =>
    rcases List.mem_cons.mp h with h | h
    · subst h
      calc xs.foldl min (min a y) ≤ min a y := foldl_min_le_init _ _
        _ ≤ y := min_le_right _ _
    · exact ih (min a x) h

/-- If the running minimum of a nonempty list is positive, every element is. -/
theorem pos_of_listMin_pos {x : ℝ} {xs : List ℝ} (h : 0 < listMin (x :: xs)) :
    ∀ y ∈ x :: xs, 0 < y := by
  intro y hy
  have hle : listMin (x :: xs) ≤ y := by
    rw [listMin_cons]
    rcases List.mem_cons.mp hy with h | h
    · exact le_trans (foldl_min_le_init _ _) (le_of_eq h.symm)
    · exact foldl_min_le_mem x h
  linarith

/-- A nonempty list with positive running minimum has positive sum. -/
theorem sum_pos_of_listMin_pos {l : List ℝ} (hne : l ≠ []) (h : 0 < listMin l) :
    0 < l.sum := by
  cases l with
  | nil => exact absurd rfl hne
  | cons x xs => exact List.sum_pos _ (pos_of_listMin_pos h) (by simp)

theorem sliceVals_ne_nil {info : IESFileInfo} (v : ℕ)
    (hH : 1 ≤ info.anglesNumH) : sliceVals info v ≠ [] := by
  simp only [sliceVals, ne_eq, List.map_eq_nil_iff, List.range_eq_nil]
  omega

/-- The source's per-slice contribution (penalty nested inside the sum > 0
guard) agrees with the spec's (penalty independent): when the penalty
condition holds, minVal > 0 forces every sample of the nonempty slice
positive, hence sum > 0. -/
theorem sliceContrib_eq_specSliceContrib (info : IESFileInfo) (v : ℕ)
    (hH : 1 ≤ info.anglesNumH) :
    sliceContrib info v = specSliceContrib info v := by
  have hv : specVals info v = sliceVals info v := rfl
  by_cases hs : 0 < (sliceVals info v).sum
  · simp only [sliceContrib, specSliceContrib, hv, if_pos hs, sliceCoeffVar,
      sliceMean]
  · have hpen : ¬ (0 < listMin (sliceVals info v) ∧
        (1.2 : ℝ) < listMax (sliceVals info v) / listMin (sliceVals info v)) := by
      rintro ⟨hmin, -⟩
      exact hs (sum_pos_of_listMin_pos (sliceVals_ne_nil v hH) hmin)
    simp only [sliceContrib, specSliceContrib, hv, if_neg hs, if_neg hpen,
      add_zero]

theorem list_range_map_sum (n : ℕ) (f : ℕ → ℝ) :
    ((List.range n).map f).sum = ∑ i ∈ Finset.range n, f i := by
  induction n with
  | zero => simp
  | succ n ih => rw [List.range_succ, Finset.sum_range_succ]; simp [ih]

/-- C1: for H ≥ 2 and V ≥ 1 the classifier computes, per vertical angle,
the slice statistics at offsets h * V + v, accumulates coeffVar under the
sum > 0 guard and the 0.5 penalty under its own condition, divides the
total by V, and compares strictly against the 0.15 threshold. -/
theorem classifier_meets_spec (info : IESFileInfo) (h2 : 2 ≤ info.anglesNumH)
    (hV : 1 ≤ info.anglesNumV) :
    avgVariation info = specAvgVariation info ∧
    (use1D info ↔ specAvgVariation info < 0.15) := by
  have hH : 1 ≤ info.anglesNumH := by omega
  have hfun : sliceContrib info = specSliceContrib info :=
    funext fun v => sliceContrib_eq_specSliceContrib info v hH
  have havg : avgVariation info = specAvgVariation info := by
    unfold avgVariation specAvgVariation
    rw [hfun]
  refine ⟨havg, ?_⟩
  unfold use1D
  rw [if_neg (by omega), havg]
  unfold kVariationThreshold
  norm_num

/-- Witness for C1 at the concrete 2 x 1 grid with samples 1.0 and 1.25. -/
theorem classifier_meets_spec_witness :
    avgVariation infoC6 = specAvgVariation infoC6 ∧
    (use1D infoC6 ↔ specAvgVariation infoC6 < 0.15) :=
  classifier_meets_spec infoC6 (by decide) (by decide)

/-- C2: a grid with at most one horizontal angle is classified 1-D
unconditionally, whatever its samples. -/
theorem use1D_of_single_horizontal (info : IESFileInfo)
    (h1 : info.anglesNumH ≤ 1) : use1D info := by
  unfold use1D
  rw [if_pos h1]
  trivial

/-- Witness for C2 at a concrete grid with no horizontal angles. -/
theorem use1D_of_single_horizontal_witness : use1D info1D :=
  use1D_of_single_horizontal info1D (by decide)

/-- C3: for H ≥ 2 the per-slice contribution splits into a coefficient
term guarded by sum > 0 plus a penalty term of 0.5 decided exactly by
minVal > 0 and maxVal / minVal > 1.2, independently of the sum > 0
branch. -/
theorem penalty_decomposition (info : IESFileInfo) (v : ℕ)
    (h2 : 2 ≤ info.anglesNumH) :
    sliceContrib info v =
      (if 0 < (sliceVals info v).sum then sliceCoeffVar info v else 0) +
      (if 0 < listMin (sliceVals info v) ∧
          (1.2 : ℝ) < listMax (sliceVals info v) / listMin (sliceVals info v)
        then (0.5 : ℝ) else 0) := by
  by_cases hs : 0 < (sliceVals info v).sum
  · simp only [sliceContrib, if_pos hs]
  · have hH : 1 ≤ info.anglesNumH := by omega
    have hpen : ¬ (0 < listMin (sliceVals info v) ∧
        (1.2 : ℝ) < listMax (sliceVals info v) / listMin (sliceVals info v)) := by
      rintro ⟨hmin, -⟩
      exact hs (sum_pos_of_listMin_pos (sliceVals_ne_nil v hH) hmin)
    simp only [sliceContrib, if_neg hs, if_neg hpen, add_zero]

/-- Witness for C3 at the concrete 2 x 1 grid with samples 1.0 and 1.25. -/
theorem penalty_decomposition_witness :
    sliceContrib infoC6 0 =
      (if 0 < (sliceVals infoC6 0).sum then sliceCoeffVar infoC6 0 else 0) +
      (if 0 < listMin (sliceVals infoC6 0) ∧
          (1.2 : ℝ) < listMax (sliceVals infoC6 0) / listMin (sliceVals infoC6 0)
        then (0.5 : ℝ) else 0) :=
  penalty_decomposition infoC6 0 (by decide)

/-- C4: for H ≥ 2, a vertical slice whose samples are all zero contributes
exactly 0 to the running total. -/
theorem zero_slice_contributes_zero (info : IESFileInfo) (v : ℕ)
    (h2 : 2 ≤ info.anglesNumH)
    (hz : ∀ h < info.anglesNumH,
      info.candalaValues (h * info.anglesNumV + v) = 0) :
    sliceContrib info v = 0 := by
  have hsum : (sliceVals info v).sum = 0 := by
    apply List.sum_eq_zero
    intro x hx
    simp only [sliceVals, List.mem_map, List.mem_range] at hx
    obtain ⟨h, hh, rfl⟩ := hx
    exact hz h hh
  simp only [sliceContrib, hsum]
  norm_num

/-- Witness for C4 at a concrete all-zero 2 x 1 grid. -/
theorem zero_slice_contributes_zero_witness : sliceContrib infoZero 0 = 0 :=
  zero_slice_contributes_zero infoZero 0 (by decide) (fun _ _ => rfl)

/-- C5: avgVariation is the running total divided by exactly V, and slices
contributing 0 are not dropped from the denominator: removing any set of
zero-contribution slices from the sum leaves the quotient over the full V
unchanged. -/
theorem avg_divides_by_full_V (info : IESFileInfo) (h2 : 2 ≤ info.anglesNumH)
    (hV : 1 ≤ info.anglesNumV) :
    avgVariation info =
      (∑ x ∈ Finset.range info.anglesNumV, sliceContrib info x) /
        info.anglesNumV ∧
    ∀ S : Finset ℕ, (∀ x ∈ S, sliceContrib info x = 0) →
      avgVariation info =
        (∑ x ∈ Finset.range info.anglesNumV \ S, sliceContrib info x) /
          info.anglesNumV := by
  have hlist : avgVariation info =
      (∑ x ∈ Finset.range info.anglesNumV, sliceContrib info x) /
        info.anglesNumV := by
    unfold avgVariation
    rw [list_range_map_sum]
  refine ⟨hlist, ?_⟩
  intro S hS
  rw [hlist]
  congr 1
  refine (Finset.sum_subset Finset.sdiff_subset ?_).symm
  intro x hx hnx
  have hxS : x ∈ S := by
    by_contra hc
    exact hnx (Finset.mem_sdiff.mpr ⟨hx, hc⟩)
  exact hS x hxS

/-- Witness for C5 at the concrete all-zero 2 x 1 grid. -/
theorem avg_divides_by_full_V_witness :
    avgVariation infoZero =
      (∑ x ∈ Finset.range infoZero.anglesNumV, sliceContrib infoZero x) /
        infoZero.anglesNumV :=
  (avg_divides_by_full_V infoZero (by decide) (by decide)).1

theorem infoC6_sliceVals : sliceVals infoC6 0 = [1, 1.25] := by
  simp [sliceVals, infoC6, List.range_succ]

theorem infoC6_mean : sliceMean infoC6 0 = 1.125 := by
  rw [sliceMean, infoC6_sliceVals]
  norm_num [infoC6]

theorem infoC6_coeffVar : sliceCoeffVar infoC6 0 = 1 / 9 := by
  rw [sliceCoeffVar, infoC6_sliceVals, infoC6_mean]
  have hmax : max (0 : ℝ)
      (sumSq [1, 1.25] / (infoC6.anglesNumH : ℝ) - 1.125 * 1.125) = 1 / 64 := by
    norm_num [sumSq, infoC6]
  rw [hmax, show (1 / 64 : ℝ) = (1 / 8) ^ 2 by norm_num,
    Real.sqrt_sq (by norm_num)]
  norm_num

theorem infoC6_contrib : sliceContrib infoC6 0 = 11 / 18 := by
  simp only [sliceContrib, infoC6_sliceVals]
  rw [if_pos (by norm_num : (0 : ℝ) < ([1, 1.25] : List ℝ).sum)]
  have hmin : listMin [1, 1.25] = 1 := by norm_num [listMin, min_def]
  have hmax : listMax [1, 1.25] = 1.25 := by norm_num [listMax, max_def]
  rw [infoC6_coeffVar, hmin, hmax, if_pos (by norm_num)]
  norm_num

theorem infoC6_avg : avgVariation infoC6 = 11 / 18 := by
  unfold avgVariation
  rw [show infoC6.anglesNumV = 1 from rfl, show List.range 1 = [0] from rfl]
  simp [infoC6_contrib]

theorem foldl_min_map_mul {c : ℝ} (hc : 0 ≤ c) (l : List ℝ) (a : ℝ) :
    (l.map fun x => c * x).foldl min (c * a) = c * l.foldl min a := by
  induction l generalizing a with
  | nil => rfl
  | cons x xs ih =>
    simp only [List.map_cons, List.foldl_cons]
    rw [← mul_min_of_nonneg _ _ hc, ih]

theorem foldl_max_map_mul {c : ℝ} (hc : 0 ≤ c) (l : List ℝ) (a : ℝ) :
    (l.map fun x => c * x).foldl max (c * a) = c * l.foldl max a := by
  induction l generalizing a with
  | nil => rfl
  | cons x xs ih =>
    simp only [List.map_cons, List.foldl_cons]
    rw [← mul_max_of_nonneg _ _ hc, ih]

theorem listMin_map_mul {c : ℝ} (hc : 0 ≤ c) (l : List ℝ) :
    listMin (l.map fun x => c * x) = c * listMin l := by
  cases l with
  | nil => simp [listMin]
  | cons x xs =>
    simp only [List.map_cons, listMin]
    exact foldl_min_map_mul hc xs x

theorem listMax_map_mul {c : ℝ} (hc : 0 ≤ c) (l : List ℝ) :
    listMax (l.map fun x => c * x) = c * listMax l := by
  cases l with
  | nil => simp [listMax]
  | cons x xs =>
    simp only [List.map_cons, listMax]
    exact foldl_max_map_mul hc xs x

theorem sum_map_mul (c : ℝ) (l : List ℝ) :
    (l.map fun x => c * x).sum = c * l.sum := by
  simpa using List.sum_map_mul_left l id c

theorem sumSq_map_mul (c : ℝ) (l : List ℝ) :
    sumSq (l.map fun x => c * x) = c ^ 2 * sumSq l := by
  unfold sumSq
  rw [List.map_map]
  have h1 : ((fun x => x * x) ∘ fun x => c * x) = fun x => c ^ 2 * (x * x) := by
    funext x
    simp only [Function.comp_apply]
    ring
  rw [h1]
  simpa using List.sum_map_mul_left l (fun x => x * x) (c ^ 2)

theorem sliceVals_scale (c : ℝ) (info : IESFileInfo) (v : ℕ) :
    sliceVals (scaleInfo c info) v = (sliceVals info v).map fun x => c * x := by
  simp [sliceVals, scaleInfo, List.map_map, Function.comp]

/-- Each per-slice contribution is invariant under scaling every sample by
a positive constant. -/
theorem sliceContrib_scale (c : ℝ) (hc : 0 < c) (info : IESFileInfo) (v : ℕ) :
    sliceContrib (scaleInfo c info) v = sliceContrib info v := by
  have hvs := sliceVals_scale c info v
  have hsum : (sliceVals (scaleInfo c info) v).sum =
      c * (sliceVals info v).sum := by
    rw [hvs]; exact sum_map_mul c _
  have hH : ((scaleInfo c info).anglesNumH : ℝ) = info.anglesNumH := rfl
  by_cases hs : 0 < (sliceVals info v).sum
  · have hs' : 0 < (sliceVals (scaleInfo c info) v).sum := by
      rw [hsum]; exact mul_pos hc hs
    have hmean : sliceMean (scaleInfo c info) v = c * sliceMean info v := by
      unfold sliceMean
      rw [hsum, hH, mul_div_assoc]
    have hcv : sliceCoeffVar (scaleInfo c info) v = sliceCoeffVar info v := by
      unfold sliceCoeffVar
      rw [hvs, sumSq_map_mul, hmean, hH]
      have harg : c ^ 2 * sumSq (sliceVals info v) / (info.anglesNumH : ℝ) -
          c * sliceMean info v * (c * sliceMean info v) =
          c ^ 2 * (sumSq (sliceVals info v) / info.anglesNumH -
            sliceMean info v * sliceMean info v) := by ring
      rw [harg]
      have hmax : max (0 : ℝ)
          (c ^ 2 * (sumSq (sliceVals info v) / info.anglesNumH -
            sliceMean info v * sliceMean info v)) =
          c ^ 2 * max 0 (sumSq (sliceVals info v) / info.anglesNumH -
            sliceMean info v * sliceMean info v) := by
        rw [mul_max_of_nonneg _ _ (sq_nonneg c), mul_zero]
      rw [hmax, Real.sqrt_mul (sq_nonneg c), Real.sqrt_sq hc.le,
        mul_div_mul_left _ _ (ne_of_gt hc)]
    have hminl : listMin (sliceVals (scaleInfo c info) v) =
        c * listMin (sliceVals info v) := by
      rw [hvs]; exact listMin_map_mul hc.le _
    have hmaxl : listMax (sliceVals (scaleInfo c info) v) =
        c * listMax (sliceVals info v) := by
      rw [hvs]; exact listMax_map_mul hc.le _
    have hpen : (0 < listMin (sliceVals (scaleInfo c info) v) ∧
        (1.2 : ℝ) < listMax (sliceVals (scaleInfo c info) v) /
          listMin (sliceVals (scaleInfo c info) v)) ↔
        (0 < listMin (sliceVals info v) ∧
        (1.2 : ℝ) < listMax (sliceVals info v) / listMin (sliceVals info v)) := by
      rw [hminl, hmaxl, mul_div_mul_left _ _ (ne_of_gt hc),
        mul_pos_iff_of_pos_left hc]
    simp only [sliceContrib, if_pos hs, if_pos hs', hcv]
    congr 1
    exact if_congr hpen rfl rfl
  · have hs' : ¬ 0 < (sliceVals (scaleInfo c info) v).sum := by
      rw [hsum, mul_pos_iff_of_pos_left hc]; exact hs
    simp only [sliceContrib, if_neg hs, if_neg hs']

/-- C6: on the grid with H = 2, V = 1 and candela values 1.0 and 1.25, the
classifier computes coeffVar = 1/9 (mean 1.125, stdDev 0.125), adds the
0.5 penalty since 1.25 / 1.0 > 1.2, reaches avgVariation = 11/18 ≥ 0.15,
and classifies 2-D. -/
theorem concrete_case_use2D :
    sliceCoeffVar infoC6 0 = 1 / 9 ∧ avgVariation infoC6 = 11 / 18 ∧
      ¬ use1D infoC6 := by
  refine ⟨infoC6_coeffVar, infoC6_avg, ?_⟩
  unfold use1D
  rw [if_neg (by norm_num [infoC6] : ¬ infoC6.anglesNumH ≤ 1), infoC6_avg]
  norm_num [kVariationThreshold]

/-- C10: scaling every candela sample by a positive constant changes
neither avgVariation nor the use1D decision. -/
theorem scale_invariance (c : ℝ) (info : IESFileInfo) (hc : 0 < c)
    (h2 : 2 ≤ info.anglesNumH) (hV : 1 ≤ info.anglesNumV) :
    avgVariation (scaleInfo c info) = avgVariation info ∧
    (use1D (scaleInfo c info) ↔ use1D info) := by
  have havg : avgVariation (scaleInfo c info) = avgVariation info := by
    unfold avgVariation
    have hfun : sliceContrib (scaleInfo c info) = sliceContrib info :=
      funext fun v => sliceContrib_scale c hc info v
    rw [show (scaleInfo c info).anglesNumV = info.anglesNumV from rfl, hfun]
  refine ⟨havg, ?_⟩
  unfold use1D
  rw [show (scaleInfo c info).anglesNumH = info.anglesNumH from rfl, havg]

/-- Witness for C10 at the concrete 2 x 1 grid scaled by 2. -/
theorem scale_invariance_witness :
    avgVariation (scaleInfo 2 infoC6) = avgVariation infoC6 ∧
    (use1D (scaleInfo 2 infoC6) ↔ use1D infoC6) :=
  scale_invariance 2 infoC6 (by norm_num) (by decide) (by decide)

/-- C7: when the invoked resampler fails, IES2HDR returns false before the
output path is touched: fopen is never called and neither RGBE write
occurs. -/
theorem resampler_failure_aborts (co : Collaborators) (info : IESFileInfo)
    (hin : co.openInputOk = true) (hld : co.loadOk = true)
    (h1 : use1D info → co.save1DOk = false)
    (hn : ¬ use1D info → co.save2DOk = false) :
    (IES2HDRrun co info).1 = false ∧
    Event.openOutput ∉ (IES2HDRrun co info).2 ∧
    (∀ w h, Event.writeHeader w h ∉ (IES2HDRrun co info).2) ∧
    (∀ w h, Event.writePixels w h ∉ (IES2HDRrun co info).2) := by
  have hrun : IES2HDRrun co info = (false,
      if use1D info then
        [Event.allocBuffer (128 * 128 * 3), Event.callSave1D 128 3]
      else
        [Event.allocBuffer (128 * 128 * 3), Event.callSave2D 128 128 3]) := by
    by_cases hu : use1D info
    · simp [IES2HDRrun, hin, hld, hu, h1 hu]
    · simp [IES2HDRrun, hin, hld, hu, hn hu]
  rw [hrun]
  by_cases hu : use1D info <;> simp [hu]

/-- Witness for C7: the 1-D resampler fails on a 1-D-classified grid. -/
theorem resampler_failure_aborts_witness :
    (IES2HDRrun co7 info1D).1 = false ∧
    Event.openOutput ∉ (IES2HDRrun co7 info1D).2 ∧
    (∀ w h, Event.writeHeader w h ∉ (IES2HDRrun co7 info1D).2) ∧
    (∀ w h, Event.writePixels w h ∉ (IES2HDRrun co7 info1D).2) :=
  resampler_failure_aborts co7 info1D rfl rfl (fun _ => rfl)
    (fun hn => absurd (by simp [use1D, info1D]) hn)

/-- C8 counterexample: both RGBE write calls fail, yet IES2HDR returns
true — the source discards the results of RGBE_WriteHeader and
RGBE_WritePixels_RLE, so a write failure is not propagated. -/
theorem emission_write_failure_returns_true_cex :
    co8.writeHeaderOk = false ∧ co8.writePixelsOk = false ∧
    (IES2HDRrun co8 info1D).1 = true := by
  refine ⟨rfl, rfl, ?_⟩
  simp [IES2HDRrun, co8, use1D, info1D]

/-- C8 (amended): a failure to open the output path is propagated — with
the output fopen failing, IES2HDR returns false on every path; failures
of the header or RLE pixel writes themselves are not checked. -/
theorem open_output_failure_propagated (co : Collaborators)
    (info : IESFileInfo) (hout : co.openOutputOk = false) :
    (IES2HDRrun co info).1 = false := by
  unfold IES2HDRrun
  by_cases hi : co.openInputOk = false
  · simp [hi]
  · by_cases hl : co.loadOk = false
    · simp [hi, hl]
    · by_cases hu : use1D info
      · by_cases h1 : co.save1DOk = false <;> simp [hi, hl, hu, h1, hout]
      · by_cases h2 : co.save2DOk = false <;> simp [hi, hl, hu, h2, hout]

/-- Witness for C8's amended statement: the output fopen fails and the
conversion returns false. -/
theorem open_output_failure_propagated_witness :
    (IES2HDRrun co8b info1D).1 = false :=
  open_output_failure_propagated co8b info1D rfl

/-- C9: after a successful load the trace starts with the buffer
allocation of exactly 128 * 128 * 3 floats, before any resampler call,
and every resampler call passes width 128, height 128, channel 3,
whatever the grid's angular resolution. -/
theorem fixed_geometry_and_alloc (co : Collaborators) (info : IESFileInfo)
    (hin : co.openInputOk = true) (hld : co.loadOk = true) :
    ∃ rest, (IES2HDRrun co info).2 =
        Event.allocBuffer (128 * 128 * 3) :: rest ∧
      (∀ w c, Event.callSave1D w c ∈ (IES2HDRrun co info).2 →
        w = 128 ∧ c = 3) ∧
      (∀ w h c, Event.callSave2D w h c ∈ (IES2HDRrun co info).2 →
        w = 128 ∧ h = 128 ∧ c = 3) := by
  by_cases hu : use1D info
  · by_cases h1 : co.save1DOk = false
    · refine ⟨[Event.callSave1D 128 3], ?_, ?_, ?_⟩ <;>
        simp [IES2HDRrun, hin, hld, hu, h1]
    · by_cases ho : co.openOutputOk = false
      · refine ⟨[Event.callSave1D 128 3, Event.openOutput], ?_, ?_, ?_⟩ <;>
          simp [IES2HDRrun, hin, hld, hu, h1, ho]
      · refine ⟨[Event.callSave1D 128 3, Event.openOutput,
          Event.writeHeader 128 128, Event.writePixels 128 128],
            ?_, ?_, ?_⟩ <;>
          simp [IES2HDRrun, hin, hld, hu, h1, ho]
  · by_cases h2 : co.save2DOk = false
    · refine ⟨[Event.callSave2D 128 128 3], ?_, ?_, ?_⟩ <;>
        simp [IES2HDRrun, hin, hld, hu, h2]
    · by_cases ho : co.openOutputOk = false
      · refine ⟨[Event.callSave2D 128 128 3, Event.openOutput], ?_, ?_, ?_⟩ <;>
          simp [IES2HDRrun, hin, hld, hu, h2, ho]
      · refine ⟨[Event.callSave2D 128 128 3, Event.openOutput,
          Event.writeHeader 128 128, Event.writePixels 128 128],
            ?_, ?_, ?_⟩ <;>
          simp [IES2HDRrun, hin, hld, hu, h2, ho]

/-- Witness for C9 with all collaborators succeeding. -/
theorem fixed_geometry_and_alloc_witness :
    ∃ rest, (IES2HDRrun co9 info1D).2 =
        Event.allocBuffer (128 * 128 * 3) :: rest ∧
      (∀ w c, Event.callSave1D w c ∈ (IES2HDRrun co9 info1D).2 →
        w = 128 ∧ c = 3) ∧
      (∀ w h c, Event.callSave2D w h c ∈ (IES2HDRrun co9 info1D).2 →
        w = 128 ∧ h = 128 ∧ c = 3) :=
  fixed_geometry_and_alloc co9 info1D rfl rfl
